import Mathlib

/-!
Verification of the india-electricians-db normalization/deduplication core.

Shallow embedding of the repository's deduplication + normalization pipeline:

* `BaseScraper._extract_phone_numbers` (src/scrapers/__init__.py) — regex-based
  phone extraction; the five regular expressions are embedded as explicit token
  lists and matched with Python `re.findall` semantics (leftmost, non-overlapping,
  greedy `?`).
* `is_valid_phone` (scrape_surat_verified.py) — phone validation predicate.
* `Electrician.get_unique_key` (src/models.py) — identity key builder.
* `DataStorage.save_to_database` (src/storage.py) — the merge/upsert engine over
  the electricians table, modelled as a list of rows in insertion order.

Python strings are modelled as `List Char` in the normalizer (where we reason
about individual characters) and as `String` in the record model.  `datetime`
values are modelled by their ISO-format strings; `datetime.utcnow()` becomes an
explicit `now` parameter.
-/

namespace ElectriciansDB

/-- Characters the regex character class `[\s\-]` accepts (space, tab, newline,
carriage return, form feed, vertical tab, or dash). -/
def isSepChar (c : Char) : Bool :=
  c = ' ' || c = '\t' || c = '\n' || c = '\r' || c = '\x0c' || c = '\x0b' || c = '-'

/-- The regex character class `[6-9]`. -/
def isSix9 (c : Char) : Bool :=
  c = '6' || c = '7' || c = '8' || c = '9'

/-- One token of the phone regexes: a literal character, the class `[6-9]`,
the class `\d`, or an optional separator `[\s\-]?`. -/
inductive Tok where
  | lit (c : Char)
  | cls69
  | dig
  | optSep
deriving Repr, DecidableEq

/-- Match a token list against a prefix of the text, Python-regex style
(greedy `?` with backtracking).  Returns the matched characters and the rest. -/
def matchToks : List Tok → List Char → Option (List Char × List Char)
  | [], s => some ([], s)
  | Tok.lit c :: ts, x :: s =>
      if x = c then (matchToks ts s).map (fun p => (x :: p.1, p.2)) else none
  | Tok.cls69 :: ts, x :: s =>
      if isSix9 x then (matchToks ts s).map (fun p => (x :: p.1, p.2)) else none
  | Tok.dig :: ts, x :: s =>
      if x.isDigit then (matchToks ts s).map (fun p => (x :: p.1, p.2)) else none
  | Tok.optSep :: ts, x :: s =>
      if isSepChar x then
        match matchToks ts s with
        | some p => some (x :: p.1, p.2)
        | none => matchToks ts (x :: s)
      else matchToks ts (x :: s)
  | Tok.optSep :: ts, [] => matchToks ts []
  | _ :: _, [] => none

/-- Python `re.findall` for one pattern: scan left to right, record non-overlapping
matches, resume after each match.  Fuel bounds the scan (every step strictly
shortens the remaining text because every pattern below consumes characters). -/
def findAllFuel : Nat → List Tok → List Char → List (List Char)
  | 0, _, _ => []
  | _ + 1, _, [] => []
  | fuel + 1, toks, x :: s =>
      match matchToks toks (x :: s) with
      | some (m, rest) => m :: findAllFuel fuel toks rest
      | none => findAllFuel fuel toks s

def findAll (toks : List Tok) (s : List Char) : List (List Char) :=
  findAllFuel (s.length + 1) toks s

/-- Pattern `\+91[\s\-]?[6-9]\d{9}`. -/
def pat1 : List Tok :=
  [Tok.lit '+', Tok.lit '9', Tok.lit '1', Tok.optSep, Tok.cls69,
   Tok.dig, Tok.dig, Tok.dig, Tok.dig, Tok.dig, Tok.dig, Tok.dig, Tok.dig, Tok.dig]

/-- Pattern `91[\s\-]?[6-9]\d{9}`. -/
def pat2 : List Tok :=
  [Tok.lit '9', Tok.lit '1', Tok.optSep, Tok.cls69,
   Tok.dig, Tok.dig, Tok.dig, Tok.dig, Tok.dig, Tok.dig, Tok.dig, Tok.dig, Tok.dig]

/-- Pattern `0[6-9]\d{9}`. -/
def pat3 : List Tok :=
  [Tok.lit '0', Tok.cls69,
   Tok.dig, Tok.dig, Tok.dig, Tok.dig, Tok.dig, Tok.dig, Tok.dig, Tok.dig, Tok.dig]

/-- Pattern `[6-9]\d{9}`. -/
def pat4 : List Tok :=
  [Tok.cls69,
   Tok.dig, Tok.dig, Tok.dig, Tok.dig, Tok.dig, Tok.dig, Tok.dig, Tok.dig, Tok.dig]

/-- Pattern `[6-9]\d{4}[\s\-]?\d{5}`. -/
def pat5 : List Tok :=
  [Tok.cls69, Tok.dig, Tok.dig, Tok.dig, Tok.dig, Tok.optSep,
   Tok.dig, Tok.dig, Tok.dig, Tok.dig, Tok.dig]

/-- Normalization of one regex match in `_extract_phone_numbers`: keep the
digits, and if at least 10 remain take the last 10 (otherwise the match is
dropped). -/
def normalizeMatch (m : List Char) : Option (List Char) :=
  let ds := m.filter Char.isDigit
  if 10 ≤ ds.length then some (ds.drop (ds.length - 10)) else none

/-- Embedding of `BaseScraper._extract_phone_numbers` (src/scrapers/__init__.py):
run the five patterns in order, concatenate the matches, normalize each,
and collapse duplicates (`list(set(...))`; Python's set order is unspecified,
so the result is read up to membership). -/
def extractPhoneNumbers (text : List Char) : List (List Char) :=
  let phones := findAll pat1 text ++ findAll pat2 text ++ findAll pat3 text
    ++ findAll pat4 text ++ findAll pat5 text
  (phones.filterMap normalizeMatch).dedup

/-- Embedding of `is_valid_phone` (scrape_surat_verified.py): 10 digits, first in 6-9,
and not a degenerate pattern (fewer than 4 distinct characters,
`len(set(phone)) < 4`). -/
def isValidPhone (phone : List Char) : Bool :=
  if phone = [] || phone.length ≠ 10 then false
  else if !(phone.headI ∈ ['6', '7', '8', '9']) then false
  else if phone.dedup.length < 4 then false
  else true

/-- The `Electrician` dataclass (src/models.py): a candidate record produced by a
scraper.  `scraped_at` is the optional ISO timestamp string carried by the
candidate (`None`/`""` count as absent, matching Python truthiness). -/
structure Electrician where
  name : String
  phone : String
  city : String
  state : String
  address : Option String := none
  pincode : Option String := none
  business_name : Option String := none
  email : Option String := none
  website : Option String := none
  services : List String := []
  experience_years : Option Int := none
  rating : Option ℚ := none
  review_count : Option Int := none
  source : String := ""
  source_url : Option String := none
  scraped_at : Option String := none
  verified : Bool := false
deriving Repr, DecidableEq

/-- Python `str.lower` restricted to ASCII, as used on city/state names. -/
def lowerStr (s : String) : String :=
  (s.toList.map Char.toLower).asString

/-- Embedding of `Electrician.get_unique_key` (src/models.py): digits of the phone, last 10
(`[-10:]` keeps everything when fewer than 10 digits), then lower-cased city and
state joined with underscores. -/
def getUniqueKey (e : Electrician) : String :=
  let ds := e.phone.toList.filter Char.isDigit
  (ds.drop (ds.length - 10)).asString ++ "_" ++ lowerStr e.city ++ "_" ++ lowerStr e.state

def isDigits (l : List Char) : Bool := l.all Char.isDigit

/-- Shape check for `datetime.fromisoformat` input:
`YYYY-MM-DD[<sep>HH:MM[:SS[.fff[fff]]]]`.  Field ranges are not checked; the
development only needs that parsing is a partial function with both accepted
and rejected inputs. -/
def wellFormedIso (cs : List Char) : Bool :=
  match cs with
  | y1 :: y2 :: y3 :: y4 :: '-' :: m1 :: m2 :: '-' :: d1 :: d2 :: rest =>
      isDigits [y1, y2, y3, y4, m1, m2, d1, d2] &&
      (match rest with
       | [] => true
       | _ :: h1 :: h2 :: ':' :: n1 :: n2 :: rest2 =>
           isDigits [h1, h2, n1, n2] &&
           (match rest2 with
            | [] => true
            | ':' :: s1 :: s2 :: rest3 =>
                isDigits [s1, s2] &&
                (match rest3 with
                 | [] => true
                 | '.' :: frac => isDigits frac && (frac.length = 3 || frac.length = 6)
                 | _ => false)
            | _ => false)
       | _ => false)
  | _ => false

/-- Python `datetime.fromisoformat`, with datetimes represented by their ISO strings:
returns the value on well-formed input, `none` where Python raises
`ValueError`. -/
def parseIso (s : String) : Option String :=
  if wellFormedIso s.toList then some s else none

/-- One row of the `electricians` table (`ElectricianDB`, src/storage.py).
`DateTime` columns are represented by ISO strings; `services` holds the JSON
string as the serialized list (`None` when the candidate list was empty). -/
structure ElectricianDB where
  name : String
  phone : String
  city : String
  state : String
  address : Option String
  pincode : Option String
  business_name : Option String
  email : Option String
  website : Option String
  services : Option (List String)
  experience_years : Option Int
  rating : Option ℚ
  review_count : Option Int
  source : String
  source_url : Option String
  verified : Bool
  scraped_at : String
  unique_key : String
  category : Option String
  service_description : Option String
  smart_meter_score : Int
  smart_meter_notes : Option String
  verified_by : Option String
  verified_at : Option String
deriving Repr, DecidableEq

/-- The row `ElectricianDB.from_electrician` constructs, given the timestamp
that ends up in `scraped_at`.  Columns the constructor leaves unset take their
declared defaults (`smart_meter_score = 0`, everything else `NULL`). -/
def mkRowFrom (e : Electrician) (ts : String) : ElectricianDB :=
  { name := e.name
    phone := e.phone
    city := e.city
    state := e.state
    address := e.address
    pincode := e.pincode
    business_name := e.business_name
    email := e.email
    website := e.website
    services := if e.services = [] then none else some e.services
    experience_years := e.experience_years
    rating := e.rating
    review_count := e.review_count
    source := e.source
    source_url := e.source_url
    verified := e.verified
    scraped_at := ts
    unique_key := getUniqueKey e
    category := none
    service_description := none
    smart_meter_score := 0
    smart_meter_notes := none
    verified_by := none
    verified_at := none }

/-- Embedding of `ElectricianDB.from_electrician` (src/storage.py): build a row from a
candidate.  `scraped_at` is parsed from the candidate when truthy (raising —
here `Except.error` — on malformed input), else `datetime.utcnow()`, passed in
as `now`. -/
def fromElectrician (now : String) (e : Electrician) : Except Unit ElectricianDB :=
  match e.scraped_at with
  | none => Except.ok (mkRowFrom e now)
  | some s =>
      if s = "" then Except.ok (mkRowFrom e now)
      else match parseIso s with
        | some t => Except.ok (mkRowFrom e t)
        | none => Except.error ()

/-- Python truthiness of the five updatable column values. -/
def truthyStr (s : String) : Bool := s ≠ ""

def truthyOptStr : Option String → Bool
  | none => false
  | some s => s ≠ ""

def truthyOptRat : Option ℚ → Bool
  | none => false
  | some q => q ≠ 0

def truthyOptInt : Option Int → Bool
  | none => false
  | some n => n ≠ 0

/-- The update branch of `save_to_database`: for each of name, address, rating,
review_count, source_url, copy the converted candidate's value onto the
existing row when it is truthy; then stamp `scraped_at` with `utcnow`. -/
def applyUpdate (db : ElectricianDB) (now : String) (r : ElectricianDB) : ElectricianDB :=
  let r1 := if truthyStr db.name then { r with name := db.name } else r
  let r2 := if truthyOptStr db.address then { r1 with address := db.address } else r1
  let r3 := if truthyOptRat db.rating then { r2 with rating := db.rating } else r2
  let r4 := if truthyOptInt db.review_count then { r3 with review_count := db.review_count } else r3
  let r5 := if truthyOptStr db.source_url then { r4 with source_url := db.source_url } else r4
  { r5 with scraped_at := now }

/-- The stored table, in insertion (rowid) order. -/
abbrev Store := List ElectricianDB

/-- The lookup `session.query(...).filter_by(unique_key=k).first()`. -/
def findByKey (s : Store) (k : String) : Option ElectricianDB :=
  s.find? (fun r => r.unique_key == k)

/-- Mutate the first row with the given key in place. -/
def modifyFirst (k : String) (f : ElectricianDB → ElectricianDB) : Store → Store
  | [] => []
  | r :: rs => if r.unique_key == k then f r :: rs else r :: modifyFirst k f rs

/-- The loop body of `save_to_database`, threading the session's view of the
table (queries see earlier pending inserts of the same batch: sessions
autoflush) and the `saved_count` accumulator.  A raised exception aborts the
loop. -/
def saveLoop (now : String) (updateExisting : Bool) :
    List Electrician → Store → Nat → Except Unit (Store × Nat)
  | [], s, cnt => Except.ok (s, cnt)
  | e :: es, s, cnt =>
      match findByKey s (getUniqueKey e) with
      | some _ =>
          if updateExisting then
            match fromElectrician now e with
            | Except.ok db =>
                saveLoop now updateExisting es (modifyFirst (getUniqueKey e) (applyUpdate db now) s) cnt
            | Except.error err => Except.error err
          else saveLoop now updateExisting es s cnt
      | none =>
          match fromElectrician now e with
          | Except.ok db => saveLoop now updateExisting es (s ++ [db]) (cnt + 1)
          | Except.error err => Except.error err

/-- Embedding of `DataStorage.save_to_database` (src/storage.py): run the loop in a session;
on success commit the session's table and return `saved_count`; on an exception
roll back (the table is left as it was) and re-raise. -/
def saveToDatabase (now : String) (electricians : List Electrician) (store : Store)
    (updateExisting : Bool) : Store × Except Unit Nat :=
  match saveLoop now updateExisting electricians store 0 with
  | Except.ok (s, c) => (s, Except.ok c)
  | Except.error err => (store, Except.error err)

/-- The keys currently present in the table. -/
def keysOf (s : Store) : List String := s.map (fun r => r.unique_key)

/-- Spec-level count (§4.3 batch variant, stated from the spec's words for the
refinement in C5): processing candidates in order, count those whose identity
key is not already present, accumulating keys as they are inserted. -/
def specNewKeyCount : List Electrician → List String → Nat
  | [], _ => 0
  | c :: cs, ks =>
      if getUniqueKey c ∈ ks then specNewKeyCount cs ks
      else specNewKeyCount cs (getUniqueKey c :: ks) + 1

/-- The last 10 digits of a raw phone string — the normalized phone that
`get_unique_key` keys on. -/
def digits10 (p : String) : List Char :=
  let ds := p.toList.filter Char.isDigit
  ds.drop (ds.length - 10)

/-- The observable state of a row: every column except the last-updated
timestamp `scraped_at`. -/
def stripTimestamp (r : ElectricianDB) : ElectricianDB :=
  { r with scraped_at := "" }

/-! ## Concrete inputs used to witness the theorems -/

/-- Scenario A candidate (spec §8). -/
def cPatel : Electrician :=
  { name := "Patel Electric", phone := "+91 98250 12345", city := "Surat", state := "Gujarat" }

/-- An unverified candidate sharing cPatel's identity key (different case). -/
def cPatel2 : Electrician :=
  { name := "Patel Bros", phone := "9825012345", city := "SURAT", state := "Gujarat",
    address := some "Ring Road", verified := false }

/-- The candidate cPatel with city/state in different letter case. -/
def cPatelCase : Electrician :=
  { name := "Patel Electric", phone := "+91 98250 12345", city := "SURAT", state := "GUJARAT" }

/-- A stored, verified row for cPatel's key. -/
def rowVerified : ElectricianDB :=
  { mkRowFrom cPatel "2024-01-01T00:00:00" with
    verified := true, verified_by := some "ops", verified_at := some "2024-01-02T00:00:00" }

/-- A candidate whose phone is the degenerate `9999999999`. -/
def cDegPhone : Electrician :=
  { name := "Fake Listing", phone := "9999999999", city := "Surat", state := "Gujarat" }

/-- A candidate carrying an old (but well-formed) scrape timestamp. -/
def cOldTs : Electrician :=
  { name := "Old Scrape", phone := "9825012345", city := "Surat", state := "Gujarat",
    scraped_at := some "2020-01-01T00:00:00" }

/-- A candidate whose scrape timestamp does not parse (`fromisoformat` raises). -/
def cBadTs : Electrician :=
  { name := "Bad Scrape", phone := "9000000001", city := "Surat", state := "Gujarat",
    scraped_at := some "not-a-date" }

/-- A candidate with a fresh identity key. -/
def cFresh : Electrician :=
  { name := "Fresh Lead", phone := "9000000002", city := "Surat", state := "Gujarat" }

/-! ## Basic lemmas about the embedded operations -/

theorem applyUpdate_eq (db : ElectricianDB) (now : String) (r : ElectricianDB) :
    applyUpdate db now r =
      { r with
        name := if truthyStr db.name then db.name else r.name
        address := if truthyOptStr db.address then db.address else r.address
        rating := if truthyOptRat db.rating then db.rating else r.rating
        review_count := if truthyOptInt db.review_count then db.review_count else r.review_count
        source_url := if truthyOptStr db.source_url then db.source_url else r.source_url
        scraped_at := now } := by
  simp only [applyUpdate]
  split_ifs <;> rfl

theorem applyUpdate_unique_key (db : ElectricianDB) (now : String) (r : ElectricianDB) :
    (applyUpdate db now r).unique_key = r.unique_key := by
  rw [applyUpdate_eq]

theorem fromElectrician_ok_shape {now : String} {e : Electrician} {db : ElectricianDB}
    (h : fromElectrician now e = Except.ok db) :
    ((e.scraped_at = none ∨ e.scraped_at = some "") ∧ db = mkRowFrom e now) ∨
      ∃ t, e.scraped_at = some t ∧ t ≠ "" ∧ parseIso t = some t ∧ db = mkRowFrom e t := by
  cases hsc : e.scraped_at with
  | none =>
      simp only [fromElectrician, hsc, Except.ok.injEq] at h
      exact Or.inl ⟨Or.inl rfl, h.symm⟩
  | some s =>
      simp only [fromElectrician, hsc] at h
      by_cases hs : s = ""
      · rw [if_pos hs] at h
        exact Or.inl ⟨Or.inr (by rw [hs]), (Except.ok.inj h).symm⟩
      · rw [if_neg hs] at h
        cases hp : parseIso s with
        | none => rw [hp] at h; exact absurd h (by simp)
        | some t =>
            rw [hp] at h
            have ht : t = s := by
              unfold parseIso at hp
              by_cases hw : wellFormedIso s.toList = true
              · rw [if_pos hw] at hp; exact (Option.some.inj hp).symm
              · rw [if_neg hw] at hp; exact absurd hp (by simp)
            refine Or.inr ⟨t, ?_, ?_, ?_, (Except.ok.inj h).symm⟩
            · rw [ht]
            · rw [ht]; exact hs
            · rw [ht] at hp ⊢; exact hp

theorem fromElectrician_unique_key {now : String} {e : Electrician} {db : ElectricianDB}
    (h : fromElectrician now e = Except.ok db) : db.unique_key = getUniqueKey e := by
  rcases fromElectrician_ok_shape h with ⟨_, h'⟩ | ⟨t, _, _, _, h'⟩ <;> simp [h', mkRowFrom]

theorem findByKey_isSome_iff (s : Store) (k : String) :
    (findByKey s k).isSome ↔ k ∈ keysOf s := by
  induction s with
  | nil => simp [findByKey, keysOf]
  | cons r rs ih =>
      by_cases hk : r.unique_key = k
      · simp [findByKey, keysOf, List.find?, hk]
      · have : (r.unique_key == k) = false := by simp [hk]
        simp only [findByKey, List.find?, this, keysOf, List.map, List.mem_cons]
        rw [← keysOf]
        rw [findByKey] at ih
        rw [ih]
        constructor
        · exact Or.inr
        · rintro (h | h)
          · exact absurd h.symm hk
          · exact h

theorem modifyFirst_keysOf (k : String) (f : ElectricianDB → ElectricianDB)
    (hf : ∀ r, (f r).unique_key = r.unique_key) (s : Store) :
    keysOf (modifyFirst k f s) = keysOf s := by
  induction s with
  | nil => rfl
  | cons r rs ih =>
      unfold modifyFirst
      by_cases hk : r.unique_key = k
      · simp [keysOf, hk, hf]
      · have : (r.unique_key == k) = false := by simp [hk]
        simp only [this, Bool.false_eq_true, if_false, keysOf, List.map]
        rw [← keysOf, ← keysOf, ih]

theorem modifyFirst_findByKey (k : String) (f : ElectricianDB → ElectricianDB)
    (hf : ∀ r, (f r).unique_key = r.unique_key) (s : Store) :
    findByKey (modifyFirst k f s) k = (findByKey s k).map f := by
  induction s with
  | nil => rfl
  | cons r rs ih =>
      unfold modifyFirst
      by_cases hk : r.unique_key = k
      · have h1 : (r.unique_key == k) = true := by simp [hk]
        have h2 : ((f r).unique_key == k) = true := by simp [hf, hk]
        simp [findByKey, List.find?, h1, h2]
      · have h1 : (r.unique_key == k) = false := by simp [hk]
        simp only [h1, Bool.false_eq_true, if_false, findByKey, List.find?]
        rw [← findByKey, ← findByKey, ih]

theorem mem_modifyFirst_of_ne {x : ElectricianDB} {s : Store} (k : String)
    (f : ElectricianDB → ElectricianDB) (hx : x ∈ s) (hk : x.unique_key ≠ k) :
    x ∈ modifyFirst k f s := by
  induction s with
  | nil => exact absurd hx (List.not_mem_nil x)
  | cons r rs ih =>
      rcases List.mem_cons.mp hx with h | h
      · subst h
        have : (x.unique_key == k) = false := by simp [hk]
        simp [modifyFirst, this]
      · unfold modifyFirst
        split
        · exact List.mem_cons_of_mem _ (h)
        · exact List.mem_cons_of_mem _ (ih h)

theorem modifyFirst_append_not_found {s : Store} {k : String} {db : ElectricianDB}
    (f : ElectricianDB → ElectricianDB) (h : findByKey s k = none) (hk : db.unique_key = k) :
    modifyFirst k f (s ++ [db]) = s ++ [f db] := by
  induction s with
  | nil =>
      have : (db.unique_key == k) = true := by simp [hk]
      simp [modifyFirst, this]
  | cons r rs ih =>
      have hr : (r.unique_key == k) = false := by
        by_contra hc
        have : (r.unique_key == k) = true := by
          cases h' : (r.unique_key == k) with
          | true => rfl
          | false => exact absurd h' hc
        unfold findByKey List.find? at h
        rw [this] at h
        exact absurd h (by simp)
      have h' : findByKey rs k = none := by
        unfold findByKey List.find? at h
        rw [hr] at h
        exact h
      simp only [List.cons_append, modifyFirst, hr, Bool.false_eq_true, if_false]
      exact congrArg (r :: ·) (ih h')

theorem modifyFirst_comp (k : String) (f g : ElectricianDB → ElectricianDB)
    (hg : ∀ r, (g r).unique_key = r.unique_key) (s : Store) :
    modifyFirst k f (modifyFirst k g s) = modifyFirst k (fun r => f (g r)) s := by
  induction s with
  | nil => rfl
  | cons r rs ih =>
      by_cases hk : r.unique_key = k
      · have h1 : (r.unique_key == k) = true := by simp [hk]
        have h2 : ((g r).unique_key == k) = true := by simp [hg, hk]
        simp [modifyFirst, h1, h2]
      · have h1 : (r.unique_key == k) = false := by simp [hk]
        simp only [modifyFirst, h1, Bool.false_eq_true, if_false]
        rw [ih]

theorem modifyFirst_map_strip (k : String) (f₁ f₂ : ElectricianDB → ElectricianDB)
    (h : ∀ r, stripTimestamp (f₁ r) = stripTimestamp (f₂ r)) (s : Store) :
    (modifyFirst k f₁ s).map stripTimestamp = (modifyFirst k f₂ s).map stripTimestamp := by
  induction s with
  | nil => rfl
  | cons r rs ih =>
      unfold modifyFirst
      split
      · simp [h r]
      · simp only [List.map]
        rw [ih]

theorem findByKey_append_none {s : Store} {k : String} {db : ElectricianDB}
    (h : findByKey s k = none) (hk : db.unique_key = k) :
    findByKey (s ++ [db]) k = some db := by
  induction s with
  | nil =>
      have : (db.unique_key == k) = true := by simp [hk]
      simp [findByKey, List.find?, this]
  | cons r rs ih =>
      have hr : (r.unique_key == k) = false := by
        cases h' : (r.unique_key == k) with
        | false => rfl
        | true =>
            unfold findByKey List.find? at h
            rw [h'] at h
            exact absurd h (by simp)
      have h' : findByKey rs k = none := by
        unfold findByKey List.find? at h
        rw [hr] at h
        exact h
      simp only [List.cons_append, findByKey, List.find?, hr]
      exact ih h'

theorem fromElectrician_ok_variant {now : String} {e : Electrician} {db : ElectricianDB}
    (h : fromElectrician now e = Except.ok db) (now' : String) :
    ∃ db', fromElectrician now' e = Except.ok db' ∧
      db'.name = db.name ∧ db'.address = db.address ∧ db'.rating = db.rating ∧
      db'.review_count = db.review_count ∧ db'.source_url = db.source_url ∧
      db'.unique_key = db.unique_key ∧
      stripTimestamp db' = stripTimestamp db := by
  rcases fromElectrician_ok_shape h with ⟨hsc, hdb⟩ | ⟨t, hsc, ht, hp, hdb⟩
  · refine ⟨mkRowFrom e now', ?_, ?_, ?_, ?_, ?_, ?_, ?_, ?_⟩
    · rcases hsc with hsc | hsc
      · simp [fromElectrician, hsc]
      · simp [fromElectrician, hsc]
    all_goals (rw [hdb]; rfl)
  · refine ⟨db, ?_, rfl, rfl, rfl, rfl, rfl, rfl, rfl⟩
    simp [fromElectrician, hsc, ht, hp, hdb]

theorem applyUpdate_twice_strip (db db' : ElectricianDB) (now now' : String)
    (h1 : db'.name = db.name) (h2 : db'.address = db.address) (h3 : db'.rating = db.rating)
    (h4 : db'.review_count = db.review_count) (h5 : db'.source_url = db.source_url)
    (r : ElectricianDB) :
    stripTimestamp (applyUpdate db' now' (applyUpdate db now r)) =
      stripTimestamp (applyUpdate db now r) := by
  rw [applyUpdate_eq db now r, applyUpdate_eq]
  simp only [stripTimestamp, h1, h2, h3, h4, h5]
  split_ifs <;> rfl

theorem applyUpdate_fixpoint (db db' : ElectricianDB) (now' : String)
    (h1 : db'.name = db.name) (h2 : db'.address = db.address) (h3 : db'.rating = db.rating)
    (h4 : db'.review_count = db.review_count) (h5 : db'.source_url = db.source_url) :
    applyUpdate db' now' db = { db with scraped_at := now' } := by
  rw [applyUpdate_eq]
  simp only [h1, h2, h3, h4, h5]
  split_ifs <;> rfl

theorem saveToDatabase_single (now : String) (c : Electrician) (s : Store) :
    saveToDatabase now [c] s true =
      match findByKey s (getUniqueKey c) with
      | some _ =>
          match fromElectrician now c with
          | Except.ok db =>
              (modifyFirst (getUniqueKey c) (applyUpdate db now) s, Except.ok 0)
          | Except.error err => (s, Except.error err)
      | none =>
          match fromElectrician now c with
          | Except.ok db => (s ++ [db], Except.ok 1)
          | Except.error err => (s, Except.error err) := by
  cases hf : findByKey s (getUniqueKey c)
  all_goals cases he : fromElectrician now c
  all_goals simp [saveToDatabase, saveLoop, hf, he]

theorem specNewKeyCount_cons (c : Electrician) (cs : List Electrician) (ks : List String) :
    specNewKeyCount (c :: cs) ks =
      if getUniqueKey c ∈ ks then specNewKeyCount cs ks
      else specNewKeyCount cs (getUniqueKey c :: ks) + 1 := rfl

theorem specNewKeyCount_congr (cs : List Electrician) :
    ∀ ks ks', (∀ x, x ∈ ks ↔ x ∈ ks') → specNewKeyCount cs ks = specNewKeyCount cs ks' := by
  induction cs with
  | nil => intro ks ks' _; rfl
  | cons c cs ih =>
      intro ks ks' hiff
      rw [specNewKeyCount_cons, specNewKeyCount_cons]
      by_cases hk : getUniqueKey c ∈ ks
      · rw [if_pos hk, if_pos ((hiff _).mp hk)]
        exact ih ks ks' hiff
      · rw [if_neg hk, if_neg (fun h => hk ((hiff _).mpr h))]
        have : ∀ x, x ∈ getUniqueKey c :: ks ↔ x ∈ getUniqueKey c :: ks' := by
          intro x
          simp only [List.mem_cons]
          exact or_congr Iff.rfl (hiff x)
        rw [ih _ _ this]

theorem specNewKeyCount_zero {cs : List Electrician} :
    ∀ ks, (∀ c ∈ cs, getUniqueKey c ∈ ks) → specNewKeyCount cs ks = 0 := by
  induction cs with
  | nil => intro ks _; rfl
  | cons c cs ih =>
      intro ks h
      rw [specNewKeyCount_cons, if_pos (h c (List.mem_cons_self c cs))]
      exact ih ks (fun c' hc' => h c' (List.mem_cons_of_mem c hc'))

theorem saveLoop_count (now : String) (cs : List Electrician) :
    ∀ s cnt s' n, saveLoop now true cs s cnt = Except.ok (s', n) →
      n = cnt + specNewKeyCount cs (keysOf s) := by
  induction cs with
  | nil =>
      intro s cnt s' n h
      unfold saveLoop at h
      have := (Except.ok.inj h)
      simp [specNewKeyCount, ← (Prod.mk.injEq _ _ _ _).mp this |>.2]
  | cons c cs ih =>
      intro s cnt s' n h
      unfold saveLoop at h
      cases hf : findByKey s (getUniqueKey c) with
      | some r =>
          rw [hf] at h
          simp only [eq_self_iff_true, if_true] at h
          cases he : fromElectrician now c with
          | error err => rw [he] at h; exact absurd h (by simp)
          | ok db =>
              rw [he] at h
              have hkmem : getUniqueKey c ∈ keysOf s := by
                rw [← findByKey_isSome_iff, hf]; rfl
              have := ih _ _ _ _ h
              rw [modifyFirst_keysOf _ _ (applyUpdate_unique_key db now)] at this
              rw [this, specNewKeyCount_cons, if_pos hkmem]
      | none =>
          rw [hf] at h
          cases he : fromElectrician now c with
          | error err => rw [he] at h; exact absurd h (by simp)
          | ok db =>
              rw [he] at h
              have hknot : getUniqueKey c ∉ keysOf s := by
                rw [← findByKey_isSome_iff, hf]
                simp
              have hkeys : keysOf (s ++ [db]) = keysOf s ++ [getUniqueKey c] := by
                simp [keysOf, fromElectrician_unique_key he]
              have := ih _ _ _ _ h
              rw [hkeys] at this
              have hcongr : specNewKeyCount cs (keysOf s ++ [getUniqueKey c]) =
                  specNewKeyCount cs (getUniqueKey c :: keysOf s) := by
                refine specNewKeyCount_congr cs _ _ (fun x => ?_)
                simp only [List.mem_append, List.mem_singleton, List.mem_cons]
                tauto
              rw [hcongr] at this
              rw [this, specNewKeyCount_cons, if_neg hknot]
              omega

/-! ## Claim theorems -/

/-- Claim C1: for every stored canonical record with `verified = true`, an upsert
(`save_to_database`) of a candidate sharing the same identity key with
`verified = false` leaves `verified = true` and leaves `verified_by` and
`verified_at` unchanged. -/
theorem upsert_preserves_verified (now : String) (c : Electrician) (s : Store)
    (r : ElectricianDB) (hr : findByKey s (getUniqueKey c) = some r)
    (hrv : r.verified = true) (hcv : c.verified = false) :
    ∃ r', findByKey (saveToDatabase now [c] s true).1 (getUniqueKey c) = some r' ∧
      r'.verified = true ∧ r'.verified_by = r.verified_by ∧ r'.verified_at = r.verified_at := by
  cases he : fromElectrician now c with
  | error err =>
      simp only [saveToDatabase_single, hr, he]
      exact ⟨r, rfl, hrv, rfl, rfl⟩
  | ok db =>
      simp only [saveToDatabase_single, hr, he]
      refine ⟨applyUpdate db now r, ?_, ?_, ?_, ?_⟩
      · rw [modifyFirst_findByKey _ _ (applyUpdate_unique_key db now), hr]
        rfl
      · rw [applyUpdate_eq]
        exact hrv
      · rw [applyUpdate_eq]
      · rw [applyUpdate_eq]

/-- Witness for C1 at a concrete verified row and unverified same-key candidate. -/
theorem upsert_preserves_verified_witness :
    findByKey [rowVerified] (getUniqueKey cPatel2) = some rowVerified ∧
    rowVerified.verified = true ∧ cPatel2.verified = false ∧
    (∃ r', findByKey (saveToDatabase "2024-06-01T00:00:00" [cPatel2] [rowVerified] true).1
        (getUniqueKey cPatel2) = some r' ∧
      r'.verified = true ∧ r'.verified_by = rowVerified.verified_by ∧
      r'.verified_at = rowVerified.verified_at) :=
  ⟨by decide, by decide, by decide,
    upsert_preserves_verified "2024-06-01T00:00:00" cPatel2 [rowVerified] rowVerified
      (by decide) (by decide) (by decide)⟩

/-- Claim C3 counterexample: `save_to_database` does not reject a candidate whose
phone fails validation — the degenerate-phone candidate is inserted (store grows,
count 1), contradicting "the record is never persisted". -/
theorem save_no_reject_counterexample :
    isValidPhone (digits10 cDegPhone.phone) = false ∧
    (saveToDatabase "2024-01-01T00:00:00" [cDegPhone] [] true).1.length = 1 ∧
    (saveToDatabase "2024-01-01T00:00:00" [cDegPhone] [] true).2 = Except.ok 1 :=
  ⟨by decide, by decide, rfl⟩

/-- Claim C3 as amended: `save_to_database` performs no phone validation and never
signals rejection; a successfully processed candidate is always persisted under its
identity key, even when its normalized phone fails `is_valid_phone`. -/
theorem save_persists_invalid_phone (now : String) (c : Electrician) (s s' : Store) (n : Nat)
    (hinv : isValidPhone (digits10 c.phone) = false)
    (h : saveToDatabase now [c] s true = (s', Except.ok n)) :
    (findByKey s' (getUniqueKey c)).isSome := by
  rw [saveToDatabase_single] at h
  cases hf : findByKey s (getUniqueKey c) with
  | some r =>
      rw [hf] at h
      cases he : fromElectrician now c with
      | error err => rw [he] at h; exact absurd (congrArg Prod.snd h) (by simp)
      | ok db =>
          rw [he] at h
          have hs' : s' = modifyFirst (getUniqueKey c) (applyUpdate db now) s :=
            ((Prod.mk.injEq _ _ _ _).mp h).1.symm
          rw [hs', modifyFirst_findByKey _ _ (applyUpdate_unique_key db now), hf]
          rfl
  | none =>
      rw [hf] at h
      cases he : fromElectrician now c with
      | error err => rw [he] at h; exact absurd (congrArg Prod.snd h) (by simp)
      | ok db =>
          rw [he] at h
          have hs' : s' = s ++ [db] := ((Prod.mk.injEq _ _ _ _).mp h).1.symm
          rw [hs', findByKey_append_none hf (fromElectrician_unique_key he)]
          rfl

/-- Witness for the amended C3 at the degenerate-phone candidate. -/
theorem save_persists_invalid_phone_witness :
    isValidPhone (digits10 cDegPhone.phone) = false ∧
    (findByKey (saveToDatabase "2024-01-01T00:00:00" [cDegPhone] [] true).1
      (getUniqueKey cDegPhone)).isSome :=
  ⟨by decide,
    save_persists_invalid_phone "2024-01-01T00:00:00" cDegPhone []
      (saveToDatabase "2024-01-01T00:00:00" [cDegPhone] [] true).1 1 (by decide) rfl⟩

/-- Claim C4 counterexample: `_extract_phone_numbers` returns the degenerate number
`9999999999` — it appears in the normalizer's result set, contradicting "rejected and
never appears". -/
theorem normalizer_degenerate_counterexample :
    "9999999999".toList.dedup.length < 4 ∧
    "9999999999".toList ∈ extractPhoneNumbers "9999999999".toList := by decide

/-- Claim C4 as amended: the fewer-than-4-distinct-digits rejection lives in
`is_valid_phone` (scrape_surat_verified.py), not in `_extract_phone_numbers`:
`is_valid_phone` rejects every phone string with fewer than 4 distinct characters. -/
theorem is_valid_phone_rejects_degenerate (p : List Char) (h : p.dedup.length < 4) :
    isValidPhone p = false := by
  unfold isValidPhone
  split_ifs with h1 h2 <;> rfl

/-- Witness for the amended C4 at `9999999999`. -/
theorem is_valid_phone_rejects_degenerate_witness :
    "9999999999".toList.dedup.length < 4 ∧ isValidPhone "9999999999".toList = false :=
  ⟨by decide, is_valid_phone_rejects_degenerate _ (by decide)⟩

/-- Claim C5: a successful `save_to_database` batch returns exactly the number of
candidates whose identity key was not already present at the point they were
processed (in order); a batch containing only updates returns 0. -/
theorem batch_insert_count (now : String) (cs : List Electrician) (s s' : Store) (n : Nat)
    (h : saveToDatabase now cs s true = (s', Except.ok n)) :
    n = specNewKeyCount cs (keysOf s) ∧
      ((∀ c ∈ cs, getUniqueKey c ∈ keysOf s) → n = 0) := by
  have hl : saveLoop now true cs s 0 = Except.ok (s', n) := by
    unfold saveToDatabase at h
    cases hx : saveLoop now true cs s 0 with
    | error e => rw [hx] at h; exact absurd (congrArg Prod.snd h) (by simp)
    | ok p =>
        obtain ⟨s₁, n₁⟩ := p
        rw [hx] at h
        obtain ⟨h1, h2⟩ := (Prod.mk.injEq _ _ _ _).mp h
        rw [h1, Except.ok.inj h2]
  have hcount := saveLoop_count now cs s 0 s' n hl
  constructor
  · simpa using hcount
  · intro hall
    rw [specNewKeyCount_zero _ hall] at hcount
    simpa using hcount

/-- Witness for C5: a two-candidate batch (one update, one insert) over a one-row
store returns 1. -/
theorem batch_insert_count_witness :
    saveToDatabase "2024-06-01T00:00:00" [cPatel2, cFresh] [rowVerified] true =
      ((saveToDatabase "2024-06-01T00:00:00" [cPatel2, cFresh] [rowVerified] true).1,
        Except.ok 1) ∧
    (1 = specNewKeyCount [cPatel2, cFresh] (keysOf [rowVerified]) ∧
      ((∀ c ∈ [cPatel2, cFresh], getUniqueKey c ∈ keysOf [rowVerified]) → 1 = 0)) :=
  ⟨rfl,
    batch_insert_count "2024-06-01T00:00:00" [cPatel2, cFresh] [rowVerified]
      (saveToDatabase "2024-06-01T00:00:00" [cPatel2, cFresh] [rowVerified] true).1 1 rfl⟩

/-- Claim C9: `get_unique_key` is deterministic and case-insensitive in city and
state: records with the same phone and the same city/state up to letter case get
byte-for-byte identical keys. -/
theorem unique_key_deterministic_case_insensitive (e e' : Electrician)
    (hp : e.phone = e'.phone) (hc : lowerStr e.city = lowerStr e'.city)
    (hs : lowerStr e.state = lowerStr e'.state) :
    getUniqueKey e = getUniqueKey e' := by
  unfold getUniqueKey
  rw [hp, hc, hs]

/-- Witness for C9 at `Surat`/`SURAT`, `Gujarat`/`GUJARAT`. -/
theorem unique_key_deterministic_case_insensitive_witness :
    cPatel.phone = cPatelCase.phone ∧ lowerStr cPatel.city = lowerStr cPatelCase.city ∧
    lowerStr cPatel.state = lowerStr cPatelCase.state ∧
    getUniqueKey cPatel = getUniqueKey cPatelCase :=
  ⟨rfl, by decide, by decide,
    unique_key_deterministic_case_insensitive cPatel cPatelCase rfl (by decide) (by decide)⟩

/-- Claim C10: if an exception is raised while `save_to_database` processes a batch,
the transaction is rolled back — the store is exactly as before — and the exception
is re-raised to the caller. -/
theorem save_to_database_rollback_on_error (now : String) (cs : List Electrician)
    (s : Store) (err : Unit) (h : saveLoop now true cs s 0 = Except.error err) :
    saveToDatabase now cs s true = (s, Except.error err) := by
  unfold saveToDatabase
  rw [h]

/-- Witness for C10: a batch whose second candidate raises (malformed timestamp)
leaves the store empty — the first candidate's pending insert is discarded. -/
theorem save_to_database_rollback_on_error_witness :
    saveLoop "2024-06-01T00:00:00" true [cFresh, cBadTs] [] 0 = Except.error () ∧
    saveToDatabase "2024-06-01T00:00:00" [cFresh, cBadTs] [] true = ([], Except.error ()) :=
  ⟨rfl, save_to_database_rollback_on_error "2024-06-01T00:00:00" [cFresh, cBadTs] [] () rfl⟩

/-- Claim C2: upserting the same candidate twice leaves the stored table in the
same observable state (every column except the `scraped_at` timestamp) as a single
upsert, and the second call is an update, contributing 0 to the inserted count. -/
theorem upsert_idempotent (now now' : String) (c : Electrician) (s s₁ : Store) (n₁ : Nat)
    (h1 : saveToDatabase now [c] s true = (s₁, Except.ok n₁)) :
    ∃ s₂, saveToDatabase now' [c] s₁ true = (s₂, Except.ok 0) ∧
      s₂.map stripTimestamp = s₁.map stripTimestamp := by
  rw [saveToDatabase_single] at h1
  cases hf : findByKey s (getUniqueKey c) with
  | some r =>
      rw [hf] at h1
      cases he : fromElectrician now c with
      | error err => rw [he] at h1; exact absurd (congrArg Prod.snd h1) (by simp)
      | ok db =>
          rw [he] at h1
          obtain ⟨hs₁, -⟩ := (Prod.mk.injEq _ _ _ _).mp h1
          obtain ⟨db', he', hb1, hb2, hb3, hb4, hb5, hbk, hbs⟩ := fromElectrician_ok_variant he now'
          have hfind : findByKey s₁ (getUniqueKey c) = some (applyUpdate db now r) := by
            rw [← hs₁, modifyFirst_findByKey _ _ (applyUpdate_unique_key db now), hf]
            rfl
          refine ⟨modifyFirst (getUniqueKey c) (applyUpdate db' now') s₁, ?_, ?_⟩
          · simp only [saveToDatabase_single, hfind, he']
          · rw [← hs₁, modifyFirst_comp _ _ _ (applyUpdate_unique_key db now)]
            exact modifyFirst_map_strip _ _ _
              (fun r0 => applyUpdate_twice_strip db db' now now' hb1 hb2 hb3 hb4 hb5 r0) s
  | none =>
      rw [hf] at h1
      cases he : fromElectrician now c with
      | error err => rw [he] at h1; exact absurd (congrArg Prod.snd h1) (by simp)
      | ok db =>
          rw [he] at h1
          obtain ⟨hs₁, -⟩ := (Prod.mk.injEq _ _ _ _).mp h1
          obtain ⟨db', he', hb1, hb2, hb3, hb4, hb5, hbk, hbs⟩ := fromElectrician_ok_variant he now'
          have hkey : db.unique_key = getUniqueKey c := fromElectrician_unique_key he
          have hfind : findByKey s₁ (getUniqueKey c) = some db := by
            rw [← hs₁]
            exact findByKey_append_none hf hkey
          refine ⟨modifyFirst (getUniqueKey c) (applyUpdate db' now') s₁, ?_, ?_⟩
          · simp only [saveToDatabase_single, hfind, he']
          · rw [← hs₁, modifyFirst_append_not_found _ hf hkey,
              applyUpdate_fixpoint db db' now' hb1 hb2 hb3 hb4 hb5]
            simp only [List.map_append]
            rfl

/-- Witness for C2: inserting Scenario A's candidate into the empty store, then
upserting it again. -/
theorem upsert_idempotent_witness :
    saveToDatabase "2024-06-01T00:00:00" [cPatel] [] true =
      ((saveToDatabase "2024-06-01T00:00:00" [cPatel] [] true).1, Except.ok 1) ∧
    (∃ s₂, saveToDatabase "2024-06-02T00:00:00" [cPatel]
        (saveToDatabase "2024-06-01T00:00:00" [cPatel] [] true).1 true = (s₂, Except.ok 0) ∧
      s₂.map stripTimestamp =
        (saveToDatabase "2024-06-01T00:00:00" [cPatel] [] true).1.map stripTimestamp) :=
  ⟨rfl,
    upsert_idempotent "2024-06-01T00:00:00" "2024-06-02T00:00:00" cPatel []
      (saveToDatabase "2024-06-01T00:00:00" [cPatel] [] true).1 1 rfl⟩

/-- Claim C6: when a row already exists for the candidate's identity key, the upsert
changes only name, address, rating, review_count and source_url — each only when the
candidate's value is truthy (non-empty/non-null) — stamps `scraped_at`, and leaves
every other column of that row and every other row unchanged. -/
theorem update_frame (now : String) (c : Electrician) (s : Store) (r db : ElectricianDB)
    (hr : findByKey s (getUniqueKey c) = some r)
    (hdb : fromElectrician now c = Except.ok db) :
    ∃ r', findByKey (saveToDatabase now [c] s true).1 (getUniqueKey c) = some r' ∧
      r'.phone = r.phone ∧ r'.city = r.city ∧ r'.state = r.state ∧
      r'.pincode = r.pincode ∧ r'.business_name = r.business_name ∧ r'.email = r.email ∧
      r'.website = r.website ∧ r'.services = r.services ∧
      r'.experience_years = r.experience_years ∧ r'.source = r.source ∧
      r'.verified = r.verified ∧ r'.verified_by = r.verified_by ∧
      r'.verified_at = r.verified_at ∧ r'.category = r.category ∧
      r'.service_description = r.service_description ∧
      r'.smart_meter_score = r.smart_meter_score ∧
      r'.smart_meter_notes = r.smart_meter_notes ∧ r'.unique_key = r.unique_key ∧
      r'.scraped_at = now ∧
      r'.name = (if truthyStr c.name then c.name else r.name) ∧
      r'.address = (if truthyOptStr c.address then c.address else r.address) ∧
      r'.rating = (if truthyOptRat c.rating then c.rating else r.rating) ∧
      r'.review_count = (if truthyOptInt c.review_count then c.review_count else r.review_count) ∧
      r'.source_url = (if truthyOptStr c.source_url then c.source_url else r.source_url) ∧
      ∀ x ∈ s, x.unique_key ≠ getUniqueKey c → x ∈ (saveToDatabase now [c] s true).1 := by
  have hname : db.name = c.name := by
    rcases fromElectrician_ok_shape hdb with ⟨_, h'⟩ | ⟨t, _, _, _, h'⟩ <;> simp [h', mkRowFrom]
  have haddr : db.address = c.address := by
    rcases fromElectrician_ok_shape hdb with ⟨_, h'⟩ | ⟨t, _, _, _, h'⟩ <;> simp [h', mkRowFrom]
  have hrat : db.rating = c.rating := by
    rcases fromElectrician_ok_shape hdb with ⟨_, h'⟩ | ⟨t, _, _, _, h'⟩ <;> simp [h', mkRowFrom]
  have hrev : db.review_count = c.review_count := by
    rcases fromElectrician_ok_shape hdb with ⟨_, h'⟩ | ⟨t, _, _, _, h'⟩ <;> simp [h', mkRowFrom]
  have hsrc : db.source_url = c.source_url := by
    rcases fromElectrician_ok_shape hdb with ⟨_, h'⟩ | ⟨t, _, _, _, h'⟩ <;> simp [h', mkRowFrom]
  simp only [saveToDatabase_single, hr, hdb]
  refine ⟨applyUpdate db now r, ?_, ?_⟩
  · rw [modifyFirst_findByKey _ _ (applyUpdate_unique_key db now), hr]
    rfl
  · rw [applyUpdate_eq]
    refine ⟨rfl, rfl, rfl, rfl, rfl, rfl, rfl, rfl, rfl, rfl, rfl, rfl, rfl, rfl, rfl, rfl,
      rfl, rfl, rfl, ?_, ?_, ?_, ?_, ?_, ?_⟩
    · rw [hname]
    · rw [haddr]
    · rw [hrat]
    · rw [hrev]
    · rw [hsrc]
    · exact fun x hx hne => mem_modifyFirst_of_ne _ _ hx hne

/-- Witness for C6: updating the stored verified row with the partial candidate
cPatel2 (which supplies a name and an address but no rating). -/
theorem update_frame_witness :
    findByKey [rowVerified] (getUniqueKey cPatel2) = some rowVerified ∧
    fromElectrician "2024-06-01T00:00:00" cPatel2 =
      Except.ok (mkRowFrom cPatel2 "2024-06-01T00:00:00") ∧
    (∃ r', findByKey (saveToDatabase "2024-06-01T00:00:00" [cPatel2] [rowVerified] true).1
        (getUniqueKey cPatel2) = some r' ∧
      r'.phone = rowVerified.phone ∧ r'.city = rowVerified.city ∧
      r'.state = rowVerified.state ∧ r'.pincode = rowVerified.pincode ∧
      r'.business_name = rowVerified.business_name ∧ r'.email = rowVerified.email ∧
      r'.website = rowVerified.website ∧ r'.services = rowVerified.services ∧
      r'.experience_years = rowVerified.experience_years ∧ r'.source = rowVerified.source ∧
      r'.verified = rowVerified.verified ∧ r'.verified_by = rowVerified.verified_by ∧
      r'.verified_at = rowVerified.verified_at ∧ r'.category = rowVerified.category ∧
      r'.service_description = rowVerified.service_description ∧
      r'.smart_meter_score = rowVerified.smart_meter_score ∧
      r'.smart_meter_notes = rowVerified.smart_meter_notes ∧
      r'.unique_key = rowVerified.unique_key ∧
      r'.scraped_at = "2024-06-01T00:00:00" ∧
      r'.name = (if truthyStr cPatel2.name then cPatel2.name else rowVerified.name) ∧
      r'.address =
        (if truthyOptStr cPatel2.address then cPatel2.address else rowVerified.address) ∧
      r'.rating = (if truthyOptRat cPatel2.rating then cPatel2.rating else rowVerified.rating) ∧
      r'.review_count =
        (if truthyOptInt cPatel2.review_count then cPatel2.review_count
          else rowVerified.review_count) ∧
      r'.source_url =
        (if truthyOptStr cPatel2.source_url then cPatel2.source_url
          else rowVerified.source_url) ∧
      ∀ x ∈ [rowVerified], x.unique_key ≠ getUniqueKey cPatel2 →
        x ∈ (saveToDatabase "2024-06-01T00:00:00" [cPatel2] [rowVerified] true).1) :=
  ⟨by decide, rfl,
    update_frame "2024-06-01T00:00:00" cPatel2 [rowVerified] rowVerified
      (mkRowFrom cPatel2 "2024-06-01T00:00:00") (by decide) rfl⟩

/-- Claim C8 counterexample: on insert, the stored `scraped_at` comes from the
candidate's scrape timestamp when it carries one, not from the current time. -/
theorem insert_timestamp_counterexample :
    (saveToDatabase "2024-05-05T00:00:00" [cOldTs] [] true).1.map (fun r => r.scraped_at)
      = ["2020-01-01T00:00:00"] ∧
    ("2020-01-01T00:00:00" : String) ≠ "2024-05-05T00:00:00" :=
  ⟨rfl, by decide⟩

/-- Claim C8 as amended: when no row exists for the candidate's key, the upsert
appends a new row copying every candidate field (rating/review fields as given,
hence absent when the candidate omits them; verification flag copied, defaulting to
false; verification metadata NULL), counts it as inserted, and sets `scraped_at`
to the candidate's scrape timestamp when it carries a truthy one, else to the
current time. -/
theorem insert_copies_candidate (now : String) (c : Electrician) (s : Store)
    (db : ElectricianDB) (hnone : findByKey s (getUniqueKey c) = none)
    (hdb : fromElectrician now c = Except.ok db) :
    saveToDatabase now [c] s true = (s ++ [db], Except.ok 1) ∧
    db.name = c.name ∧ db.phone = c.phone ∧ db.city = c.city ∧ db.state = c.state ∧
    db.address = c.address ∧ db.pincode = c.pincode ∧
    db.business_name = c.business_name ∧ db.email = c.email ∧ db.website = c.website ∧
    db.services = (if c.services = [] then none else some c.services) ∧
    db.experience_years = c.experience_years ∧ db.rating = c.rating ∧
    db.review_count = c.review_count ∧ db.source = c.source ∧
    db.source_url = c.source_url ∧ db.verified = c.verified ∧
    db.unique_key = getUniqueKey c ∧ db.verified_by = none ∧ db.verified_at = none ∧
    db.category = none ∧ db.service_description = none ∧ db.smart_meter_score = 0 ∧
    db.smart_meter_notes = none ∧
    ((c.scraped_at = none ∨ c.scraped_at = some "") → db.scraped_at = now) ∧
    (∀ t, c.scraped_at = some t → t ≠ "" → db.scraped_at = t) := by
  refine ⟨by simp only [saveToDatabase_single, hnone, hdb], ?_⟩
  rcases fromElectrician_ok_shape hdb with ⟨hsc, h'⟩ | ⟨t, hsc, ht, hp, h'⟩ <;> subst h'
  · refine ⟨rfl, rfl, rfl, rfl, rfl, rfl, rfl, rfl, rfl, rfl, rfl, rfl, rfl, rfl, rfl, rfl,
      rfl, rfl, rfl, rfl, rfl, rfl, rfl, fun _ => rfl, ?_⟩
    intro t htc ht
    rcases hsc with hsc | hsc <;> rw [hsc] at htc
    · exact absurd htc (by simp)
    · exact absurd (Option.some.inj htc).symm ht
  · refine ⟨rfl, rfl, rfl, rfl, rfl, rfl, rfl, rfl, rfl, rfl, rfl, rfl, rfl, rfl, rfl, rfl,
      rfl, rfl, rfl, rfl, rfl, rfl, rfl, ?_, ?_⟩
    · intro h0
      rcases h0 with h0 | h0 <;> rw [h0] at hsc
      · exact absurd hsc (by simp)
      · exact absurd (Option.some.inj hsc).symm ht
    · intro t' htc' _
      rw [hsc] at htc'
      rw [Option.some.inj htc']
      rfl

/-- Witness for the amended C8: inserting Scenario A's candidate (no scrape
timestamp) into the empty store. -/
theorem insert_copies_candidate_witness :
    findByKey [] (getUniqueKey cPatel) = none ∧
    saveToDatabase "2024-06-01T00:00:00" [cPatel] [] true
      = ([mkRowFrom cPatel "2024-06-01T00:00:00"], Except.ok 1) :=
  ⟨rfl,
    (insert_copies_candidate "2024-06-01T00:00:00" cPatel []
      (mkRowFrom cPatel "2024-06-01T00:00:00") rfl rfl).1⟩

/-! ## Normalizer recovery (C7) -/

theorem digit_not_sep {x : Char} (h : x.isDigit = true) : isSepChar x = false := by
  cases hs : isSepChar x with
  | false => rfl
  | true =>
      unfold isSepChar at hs
      simp only [Bool.or_eq_true, decide_eq_true_eq] at hs
      rcases hs with (((((h' | h') | h') | h') | h') | h') | h' <;> subst h' <;>
        exact absurd h (by decide)

theorem six9_digit {x : Char} (h : isSix9 x = true) : x.isDigit = true := by
  unfold isSix9 at h
  simp only [Bool.or_eq_true, decide_eq_true_eq] at h
  rcases h with ((h' | h') | h') | h' <;> subst h' <;> rfl

theorem sep_space : isSepChar ' ' = true := rfl

theorem sep_dash : isSepChar '-' = true := rfl

theorem mem_findAll_head {toks : List Tok} {x : Char} {s m rest : List Char}
    (h : matchToks toks (x :: s) = some (m, rest)) : m ∈ findAll toks (x :: s) := by
  unfold findAll
  rw [List.length_cons]
  simp only [findAllFuel, h]
  exact List.mem_cons_self _ _

theorem mem_extractPhoneNumbers {text m n : List Char}
    (hm : m ∈ findAll pat1 text ∨ m ∈ findAll pat2 text ∨ m ∈ findAll pat3 text ∨
      m ∈ findAll pat4 text ∨ m ∈ findAll pat5 text)
    (hn : normalizeMatch m = some n) :
    n ∈ extractPhoneNumbers text := by
  simp only [extractPhoneNumbers]
  rw [List.mem_dedup]
  refine List.mem_filterMap.mpr ⟨m, ?_, hn⟩
  simp only [List.mem_append]
  tauto

/-- Claim C7: every valid 10-digit Indian mobile number (first digit 6-9), written
in any of the supported prefix/separator variants (`+91`, `91`, leading `0`, space
or dash separators, or plain), is recovered exactly by `_extract_phone_numbers`:
the 10-digit number itself is in the returned set. -/
theorem normalizer_recovers_valid_numbers
    (d0 d1 d2 d3 d4 d5 d6 d7 d8 d9 : Char)
    (h0 : isSix9 d0 = true) (h1 : d1.isDigit = true) (h2 : d2.isDigit = true)
    (h3 : d3.isDigit = true) (h4 : d4.isDigit = true) (h5 : d5.isDigit = true)
    (h6 : d6.isDigit = true) (h7 : d7.isDigit = true) (h8 : d8.isDigit = true)
    (h9 : d9.isDigit = true) :
    [d0, d1, d2, d3, d4, d5, d6, d7, d8, d9] ∈
      extractPhoneNumbers [d0, d1, d2, d3, d4, d5, d6, d7, d8, d9] ∧
    [d0, d1, d2, d3, d4, d5, d6, d7, d8, d9] ∈
      extractPhoneNumbers ('+' :: '9' :: '1' :: [d0, d1, d2, d3, d4, d5, d6, d7, d8, d9]) ∧
    [d0, d1, d2, d3, d4, d5, d6, d7, d8, d9] ∈
      extractPhoneNumbers ('+' :: '9' :: '1' :: ' ' :: [d0, d1, d2, d3, d4, d5, d6, d7, d8, d9]) ∧
    [d0, d1, d2, d3, d4, d5, d6, d7, d8, d9] ∈
      extractPhoneNumbers ('+' :: '9' :: '1' :: '-' :: [d0, d1, d2, d3, d4, d5, d6, d7, d8, d9]) ∧
    [d0, d1, d2, d3, d4, d5, d6, d7, d8, d9] ∈
      extractPhoneNumbers ('9' :: '1' :: [d0, d1, d2, d3, d4, d5, d6, d7, d8, d9]) ∧
    [d0, d1, d2, d3, d4, d5, d6, d7, d8, d9] ∈
      extractPhoneNumbers ('9' :: '1' :: ' ' :: [d0, d1, d2, d3, d4, d5, d6, d7, d8, d9]) ∧
    [d0, d1, d2, d3, d4, d5, d6, d7, d8, d9] ∈
      extractPhoneNumbers ('9' :: '1' :: '-' :: [d0, d1, d2, d3, d4, d5, d6, d7, d8, d9]) ∧
    [d0, d1, d2, d3, d4, d5, d6, d7, d8, d9] ∈
      extractPhoneNumbers ('0' :: [d0, d1, d2, d3, d4, d5, d6, d7, d8, d9]) ∧
    [d0, d1, d2, d3, d4, d5, d6, d7, d8, d9] ∈
      extractPhoneNumbers [d0, d1, d2, d3, d4, ' ', d5, d6, d7, d8, d9] ∧
    [d0, d1, d2, d3, d4, d5, d6, d7, d8, d9] ∈
      extractPhoneNumbers [d0, d1, d2, d3, d4, '-', d5, d6, d7, d8, d9] := by
  have hd0 : d0.isDigit = true := six9_digit h0
  have hsep0 : isSepChar d0 = false := digit_not_sep hd0
  have hnorm : normalizeMatch [d0, d1, d2, d3, d4, d5, d6, d7, d8, d9] =
      some [d0, d1, d2, d3, d4, d5, d6, d7, d8, d9] := by
    simp [normalizeMatch, List.filter, hd0, h1, h2, h3, h4, h5, h6, h7, h8, h9]
  have hnormP0 : normalizeMatch ('+' :: '9' :: '1' :: [d0, d1, d2, d3, d4, d5, d6, d7, d8, d9]) =
      some [d0, d1, d2, d3, d4, d5, d6, d7, d8, d9] := by
    simp [normalizeMatch, List.filter, hd0, h1, h2, h3, h4, h5, h6, h7, h8, h9]
  have hnormP1 : normalizeMatch
      ('+' :: '9' :: '1' :: ' ' :: [d0, d1, d2, d3, d4, d5, d6, d7, d8, d9]) =
      some [d0, d1, d2, d3, d4, d5, d6, d7, d8, d9] := by
    simp [normalizeMatch, List.filter, hd0, h1, h2, h3, h4, h5, h6, h7, h8, h9]
  have hnormP2 : normalizeMatch
      ('+' :: '9' :: '1' :: '-' :: [d0, d1, d2, d3, d4, d5, d6, d7, d8, d9]) =
      some [d0, d1, d2, d3, d4, d5, d6, d7, d8, d9] := by
    simp [normalizeMatch, List.filter, hd0, h1, h2, h3, h4, h5, h6, h7, h8, h9]
  have hnorm91 : normalizeMatch ('9' :: '1' :: [d0, d1, d2, d3, d4, d5, d6, d7, d8, d9]) =
      some [d0, d1, d2, d3, d4, d5, d6, d7, d8, d9] := by
    simp [normalizeMatch, List.filter, hd0, h1, h2, h3, h4, h5, h6, h7, h8, h9]
  have hnorm91s : normalizeMatch ('9' :: '1' :: ' ' :: [d0, d1, d2, d3, d4, d5, d6, d7, d8, d9]) =
      some [d0, d1, d2, d3, d4, d5, d6, d7, d8, d9] := by
    simp [normalizeMatch, List.filter, hd0, h1, h2, h3, h4, h5, h6, h7, h8, h9]
  have hnorm91d : normalizeMatch ('9' :: '1' :: '-' :: [d0, d1, d2, d3, d4, d5, d6, d7, d8, d9]) =
      some [d0, d1, d2, d3, d4, d5, d6, d7, d8, d9] := by
    simp [normalizeMatch, List.filter, hd0, h1, h2, h3, h4, h5, h6, h7, h8, h9]
  have hnorm0 : normalizeMatch ('0' :: [d0, d1, d2, d3, d4, d5, d6, d7, d8, d9]) =
      some [d0, d1, d2, d3, d4, d5, d6, d7, d8, d9] := by
    simp [normalizeMatch, List.filter, hd0, h1, h2, h3, h4, h5, h6, h7, h8, h9]
  have hnormS : normalizeMatch [d0, d1, d2, d3, d4, ' ', d5, d6, d7, d8, d9] =
      some [d0, d1, d2, d3, d4, d5, d6, d7, d8, d9] := by
    simp [normalizeMatch, List.filter, hd0, h1, h2, h3, h4, h5, h6, h7, h8, h9]
  have hnormD : normalizeMatch [d0, d1, d2, d3, d4, '-', d5, d6, d7, d8, d9] =
      some [d0, d1, d2, d3, d4, d5, d6, d7, d8, d9] := by
    simp [normalizeMatch, List.filter, hd0, h1, h2, h3, h4, h5, h6, h7, h8, h9]
  have m1 : matchToks pat4 [d0, d1, d2, d3, d4, d5, d6, d7, d8, d9] =
      some ([d0, d1, d2, d3, d4, d5, d6, d7, d8, d9], []) := by
    simp [pat4, matchToks, h0, h1, h2, h3, h4, h5, h6, h7, h8, h9]
  have m2 : matchToks pat1 ('+' :: '9' :: '1' :: [d0, d1, d2, d3, d4, d5, d6, d7, d8, d9]) =
      some ('+' :: '9' :: '1' :: [d0, d1, d2, d3, d4, d5, d6, d7, d8, d9], []) := by
    simp [pat1, matchToks, h0, h1, h2, h3, h4, h5, h6, h7, h8, h9, hsep0]
  have m3 : matchToks pat1
      ('+' :: '9' :: '1' :: ' ' :: [d0, d1, d2, d3, d4, d5, d6, d7, d8, d9]) =
      some ('+' :: '9' :: '1' :: ' ' :: [d0, d1, d2, d3, d4, d5, d6, d7, d8, d9], []) := by
    simp [pat1, matchToks, h0, h1, h2, h3, h4, h5, h6, h7, h8, h9, sep_space]
  have m4 : matchToks pat1
      ('+' :: '9' :: '1' :: '-' :: [d0, d1, d2, d3, d4, d5, d6, d7, d8, d9]) =
      some ('+' :: '9' :: '1' :: '-' :: [d0, d1, d2, d3, d4, d5, d6, d7, d8, d9], []) := by
    simp [pat1, matchToks, h0, h1, h2, h3, h4, h5, h6, h7, h8, h9, sep_dash]
  have m5 : matchToks pat2 ('9' :: '1' :: [d0, d1, d2, d3, d4, d5, d6, d7, d8, d9]) =
      some ('9' :: '1' :: [d0, d1, d2, d3, d4, d5, d6, d7, d8, d9], []) := by
    simp [pat2, matchToks, h0, h1, h2, h3, h4, h5, h6, h7, h8, h9, hsep0]
  have m6 : matchToks pat2 ('9' :: '1' :: ' ' :: [d0, d1, d2, d3, d4, d5, d6, d7, d8, d9]) =
      some ('9' :: '1' :: ' ' :: [d0, d1, d2, d3, d4, d5, d6, d7, d8, d9], []) := by
    simp [pat2, matchToks, h0, h1, h2, h3, h4, h5, h6, h7, h8, h9, sep_space]
  have m7 : matchToks pat2 ('9' :: '1' :: '-' :: [d0, d1, d2, d3, d4, d5, d6, d7, d8, d9]) =
      some ('9' :: '1' :: '-' :: [d0, d1, d2, d3, d4, d5, d6, d7, d8, d9], []) := by
    simp [pat2, matchToks, h0, h1, h2, h3, h4, h5, h6, h7, h8, h9, sep_dash]
  have m8 : matchToks pat3 ('0' :: [d0, d1, d2, d3, d4, d5, d6, d7, d8, d9]) =
      some ('0' :: [d0, d1, d2, d3, d4, d5, d6, d7, d8, d9], []) := by
    simp [pat3, matchToks, h0, h1, h2, h3, h4, h5, h6, h7, h8, h9]
  have m9 : matchToks pat5 [d0, d1, d2, d3, d4, ' ', d5, d6, d7, d8, d9] =
      some ([d0, d1, d2, d3, d4, ' ', d5, d6, d7, d8, d9], []) := by
    simp [pat5, matchToks, h0, h1, h2, h3, h4, h5, h6, h7, h8, h9, sep_space]
  have m10 : matchToks pat5 [d0, d1, d2, d3, d4, '-', d5, d6, d7, d8, d9] =
      some ([d0, d1, d2, d3, d4, '-', d5, d6, d7, d8, d9], []) := by
    simp [pat5, matchToks, h0, h1, h2, h3, h4, h5, h6, h7, h8, h9, sep_dash]
  refine ⟨?_, ?_, ?_, ?_, ?_, ?_, ?_, ?_, ?_, ?_⟩
  · exact mem_extractPhoneNumbers
      (Or.inr (Or.inr (Or.inr (Or.inl (mem_findAll_head m1))))) hnorm
  · exact mem_extractPhoneNumbers (Or.inl (mem_findAll_head m2)) hnormP0
  · exact mem_extractPhoneNumbers (Or.inl (mem_findAll_head m3)) hnormP1
  · exact mem_extractPhoneNumbers (Or.inl (mem_findAll_head m4)) hnormP2
  · exact mem_extractPhoneNumbers (Or.inr (Or.inl (mem_findAll_head m5))) hnorm91
  · exact mem_extractPhoneNumbers (Or.inr (Or.inl (mem_findAll_head m6))) hnorm91s
  · exact mem_extractPhoneNumbers (Or.inr (Or.inl (mem_findAll_head m7))) hnorm91d
  · exact mem_extractPhoneNumbers (Or.inr (Or.inr (Or.inl (mem_findAll_head m8)))) hnorm0
  · exact mem_extractPhoneNumbers
      (Or.inr (Or.inr (Or.inr (Or.inr (mem_findAll_head m9))))) hnormS
  · exact mem_extractPhoneNumbers
      (Or.inr (Or.inr (Or.inr (Or.inr (mem_findAll_head m10))))) hnormD

/-- Witness for C7 at the number 9825012345 in all ten variants. -/
theorem normalizer_recovers_valid_numbers_witness :
    (isSix9 '9' = true ∧ Char.isDigit '8' = true ∧ Char.isDigit '2' = true ∧
      Char.isDigit '5' = true ∧ Char.isDigit '0' = true ∧ Char.isDigit '1' = true ∧
      Char.isDigit '2' = true ∧ Char.isDigit '3' = true ∧ Char.isDigit '4' = true ∧
      Char.isDigit '5' = true) ∧
    ("9825012345".toList ∈ extractPhoneNumbers "9825012345".toList ∧
      "9825012345".toList ∈ extractPhoneNumbers "+919825012345".toList ∧
      "9825012345".toList ∈ extractPhoneNumbers "+91 9825012345".toList ∧
      "9825012345".toList ∈ extractPhoneNumbers "+91-9825012345".toList ∧
      "9825012345".toList ∈ extractPhoneNumbers "919825012345".toList ∧
      "9825012345".toList ∈ extractPhoneNumbers "91 9825012345".toList ∧
      "9825012345".toList ∈ extractPhoneNumbers "91-9825012345".toList ∧
      "9825012345".toList ∈ extractPhoneNumbers "09825012345".toList ∧
      "9825012345".toList ∈ extractPhoneNumbers "98250 12345".toList ∧
      "9825012345".toList ∈ extractPhoneNumbers "98250-12345".toList) :=
  ⟨by decide,
    normalizer_recovers_valid_numbers '9' '8' '2' '5' '0' '1' '2' '3' '4' '5'
      (by decide) (by decide) (by decide) (by decide) (by decide) (by decide)
      (by decide) (by decide) (by decide) (by decide)⟩

end ElectriciansDB
